import Mathlib

/-!
Shallow embedding of `healthcheck` (src/healthcheck/__init__.py): the
`HealthCheck` aggregation engine (per-checker TTL caching, failure
reduction, pluggable handlers, exception translation) and the
`EnvironmentDump` registry (`add_section`, `safe_dump`).

Modelling conventions:
  * `time.time()` values and TTLs are exact integer instants (`Int`): the
    code only ever adds a TTL to an instant and compares instants, so exact
    integer arithmetic captures the float arithmetic of the source on these
    quantities.  Every `time.time()` call made during one `check` invocation
    returns the same instant `now`.
  * The per-checker cache `self.cache` is a function `String → Option Result`
    (a Python dict keyed by checker name); `self.cache[key] = result` is a
    pointwise functional update.
  * A checker is a named computation returning `(passed, output)` or raising
    an exception; `Except Exn (Bool × String)` embeds "returns or raises".
  * Python's `sys.exc_info()` triple is embedded by `sys_exc_info_fst`
    (component `[0]`, the exception *class* object) — this is exactly what
    line 121 of the source passes to the exception handler.
  * Logging calls (`traceback.print_exc`, `current_app.logger`) are I/O with
    no effect on the returned data and are not embedded; the `ran` field of
    `CheckOutput` records which checkers were actually invoked, making
    "the checker was re-run" observable.
  * The human-readable `expire_at` string (datetime formatting) is not
    embedded; no claim mentions it.  All other `Result` fields are.
-/

/-- A Python exception as raised by a checker: its class name and the
message it was constructed with (e.g. `RuntimeError("connection refused")`). -/
structure Exn where
  clsName : String
  msg : String
deriving DecidableEq, Repr

/-- A Python object that can be handed to an exception handler: either an
exception *class* object (what `sys.exc_info()[0]` yields) or an exception
*instance*. -/
inductive ExnObj where
  | exnClass (clsName : String)
  | exnInstance (clsName : String) (msg : String)
deriving DecidableEq, Repr

/-- Python `str()` on an `ExnObj`: `str` of a class object renders as
`<class 'Name'>`; `str` of an exception instance built with a single
message argument renders as that message. -/
def pyStr : ExnObj → String
  | ExnObj.exnClass c => "<class \x27" ++ c ++ "\x27>"
  | ExnObj.exnInstance _ m => m

/-- `sys.exc_info()[0]` inside an `except` block: the class object of the
exception being handled (source line 121). -/
def sys_exc_info_fst (e : Exn) : ExnObj := ExnObj.exnClass e.clsName

/-- One registered checker: its `__name__` and its body, which either
returns a `(passed, output)` pair or raises. -/
structure Checker where
  name : String
  run : Except Exn (Bool × String)
deriving Repr

/-- `basic_exception_handler(_, e)` (source lines 18-19): ignores the
checker and returns `(False, str(e))`. -/
def basic_exception_handler (_ : Checker) (e : ExnObj) : Bool × String :=
  (false, pyStr e)

/-- The result dict built by `HealthCheck.run_check` (source lines 136-141),
minus the derived human-readable `expire_at` string. -/
structure Result where
  checker : String
  output : String
  passed : Bool
  timestamp : Int
  expires : Int
deriving DecidableEq, Repr

/-- `check_reduce(passed, result)` (source lines 44-45). -/
def check_reduce (passed : Bool) (result : Result) : Bool :=
  passed && result.passed

/-- The `HealthCheck` object's configuration and state after `__init__`. -/
structure HealthCheck where
  checkers : List Checker
  cache : String → Option Result
  cache_handler : Option (Unit → String → Option Result)
  success_status : Nat
  success_headers : List (String × String)
  success_handler : Option (List Result → String)
  success_ttl : Int
  failed_status : Nat
  failed_headers : List (String × String)
  failed_handler : Option (List Result → String)
  failed_ttl : Int
  exception_handler : Checker → ExnObj → Bool × String
  log_on_failure : Bool

/-- Python `float(x or 0)` on a TTL constructor argument (source lines
62 and 67): `None` and `0` are falsy, so both give `0.0`; any other
number is kept. -/
def float_or_zero : Option Int → Int
  | none => 0
  | some q => if q = 0 then 0 else q

/-- The Python default value of the `success_ttl` parameter (source line 51). -/
def SUCCESS_TTL_DEFAULT : Option Int := some 27

/-- The Python default value of the `failed_ttl` parameter (source line 52). -/
def FAILED_TTL_DEFAULT : Option Int := some 9

/-- `HealthCheck.__init__` (source lines 49-74): starts with an empty cache
dict and normalises both TTLs with `float(x or 0)`.  Handlers, statuses and
the checker list are taken as given; header arguments are left at their
defaults (`{'Content-Type': 'application/json'}`). -/
def HealthCheck.init (checkers : List Checker)
    (success_status failed_status : Nat)
    (success_ttl failed_ttl : Option Int)
    (success_handler failed_handler : Option (List Result → String))
    (exception_handler : Checker → ExnObj → Bool × String)
    (cache_handler : Option (Unit → String → Option Result))
    (log_on_failure : Bool) : HealthCheck :=
  { checkers := checkers
    cache := fun _ => none
    cache_handler := cache_handler
    success_status := success_status
    success_headers := [("Content-Type", "application/json")]
    success_handler := success_handler
    success_ttl := float_or_zero success_ttl
    failed_status := failed_status
    failed_headers := [("Content-Type", "application/json")]
    failed_handler := failed_handler
    failed_ttl := float_or_zero failed_ttl
    exception_handler := exception_handler
    log_on_failure := log_on_failure }

/-- `HealthCheck.run_check(checker)` (source lines 116-142): invoke the
checker; on an exception, delegate to the exception handler, passing it
`sys.exc_info()[0]` — the exception class.  Then stamp `timestamp = now`
and `expires = timestamp + ttl` where the TTL is `success_ttl` when the
check passed and `failed_ttl` otherwise. -/
def HealthCheck.run_check (hc : HealthCheck) (now : Int) (checker : Checker) :
    Result :=
  let po : Bool × String :=
    match checker.run with
    | Except.ok r => r
    | Except.error e => hc.exception_handler checker (sys_exc_info_fst e)
  let expires : Int :=
    if po.1 then now + hc.success_ttl else now + hc.failed_ttl
  { checker := checker.name
    output := po.2
    passed := po.1
    timestamp := now
    expires := expires }

/-- The per-checker loop of `HealthCheck.check` (source lines 90-97):
for each checker, reuse the cached result when `key in self.cache` and
`self.cache[key].get('expires') >= time.time()`; otherwise run the checker
and store the new result under its name.  Returns the ordered result list,
the final cache, and the names of the checkers that were actually invoked
(in invocation order). -/
def check_loop (hc : HealthCheck) (now : Int) :
    List Checker → (String → Option Result) →
    List Result × (String → Option Result) × List String
  | [], cache => ([], cache, [])
  | checker :: rest, cache =>
    match cache checker.name with
    | some r =>
      if r.expires ≥ now then
        let out := check_loop hc now rest cache
        (r :: out.1, out.2.1, out.2.2)
      else
        let nr := hc.run_check now checker
        let out := check_loop hc now rest
          (fun k => if k = checker.name then some nr else cache k)
        (nr :: out.1, out.2.1, checker.name :: out.2.2)
    | none =>
      let nr := hc.run_check now checker
      let out := check_loop hc now rest
        (fun k => if k = checker.name then some nr else cache k)
      (nr :: out.1, out.2.1, checker.name :: out.2.2)

/-- The cache `HealthCheck.check` starts from (source lines 88-89): the
external provider's mapping when a `cache_handler` is configured, the
instance's own dict otherwise. -/
def HealthCheck.effective_cache (hc : HealthCheck) : String → Option Result :=
  match hc.cache_handler with
  | some handler => handler ()
  | none => hc.cache

/-- Everything observable about one `HealthCheck.check` invocation: the
returned `(message, status, headers)` triple, plus the local result list
and verdict, the cache as mutated by the call, and the invocation log. -/
structure CheckOutput where
  message : String
  status : Nat
  headers : List (String × String)
  passed : Bool
  results : List Result
  cache : String → Option Result
  ran : List String

/-- `HealthCheck.check` (source lines 86-114): reload the cache from the
external handler if one is configured, run the per-checker loop, reduce
with `check_reduce` starting from `True`, then render through the success
or failure handler (falling back to the literal `"OK"` / `"NOT OK"`). -/
def HealthCheck.check (hc : HealthCheck) (now : Int) : CheckOutput :=
  let out := check_loop hc now hc.checkers hc.effective_cache
  let passed := List.foldl check_reduce true out.1
  if passed then
    { message :=
        match hc.success_handler with
        | some handler => handler out.1
        | none => "OK"
      status := hc.success_status
      headers := hc.success_headers
      passed := passed
      results := out.1
      cache := out.2.1
      ran := out.2.2 }
  else
    { message :=
        match hc.failed_handler with
        | some handler => handler out.1
        | none => "NOT OK"
      status := hc.failed_status
      headers := hc.failed_headers
      passed := passed
      results := out.1
      cache := out.2.1
      ran := out.2.2 }

/-- One `check` call together with the mutation of `self.cache` it leaves
behind, so that successive calls can be chained. -/
def HealthCheck.check_then (hc : HealthCheck) (now : Int) :
    HealthCheck × CheckOutput :=
  let out := hc.check now
  ({ hc with cache := out.cache }, out)

/-- A checker `db` that returns `(True, "ok")`. -/
def db_pass : Checker := { name := "db", run := Except.ok (true, "ok") }

/-- A checker `cache` that returns `(False, "timeout")`. -/
def cache_timeout : Checker := { name := "cache", run := Except.ok (false, "timeout") }

/-- A checker `db` that returns `(False, "down")`. -/
def db_fail : Checker := { name := "db", run := Except.ok (false, "down") }

/-- A checker `db` that raises `RuntimeError("connection refused")`. -/
def db_raise : Checker :=
  { name := "db", run := Except.error { clsName := "RuntimeError", msg := "connection refused" } }

/-- A `HealthCheck` built by `__init__` with the given checkers and TTL
arguments, default statuses `200`/`500`, no rendering handlers, the default
exception handler, no external cache handler. -/
def hc_of (checkers : List Checker) (sttl fttl : Option Int) : HealthCheck :=
  HealthCheck.init checkers 200 500 sttl fttl none none basic_exception_handler none true

/-- Renders a result list as its length, standing in for a pluggable handler. -/
def count_handler : List Result → String := fun rs => toString rs.length

/-- Instance with one always-passing checker and `count_handler` for success. -/
def hcC4 : HealthCheck :=
  HealthCheck.init [db_pass] 200 500 SUCCESS_TTL_DEFAULT FAILED_TTL_DEFAULT
    (some count_handler) none basic_exception_handler none true

/-- Instance with one passing and one failing checker. -/
def hcC5 : HealthCheck := hc_of [db_pass, cache_timeout] SUCCESS_TTL_DEFAULT FAILED_TTL_DEFAULT

/-- Instance with an empty checker registry. -/
def hcC6 : HealthCheck := hc_of [] SUCCESS_TTL_DEFAULT FAILED_TTL_DEFAULT

/-- Instance with one deterministically failing checker and `failed_ttl=0`. -/
def hcC2 : HealthCheck := hc_of [db_fail] SUCCESS_TTL_DEFAULT (some 0)

/-- A cached result for `db` expiring at instant 5. -/
def r0_cached : Result :=
  { checker := "db", output := "cached", passed := true, timestamp := 0, expires := 5 }

/-- Instance whose cache already holds `r0_cached` under `"db"`. -/
def hcC3 : HealthCheck :=
  { hc_of [db_pass] SUCCESS_TTL_DEFAULT FAILED_TTL_DEFAULT with
    cache := fun k => if k = "db" then some r0_cached else none }

/-- Instance with one checker raising `RuntimeError("connection refused")`,
default exception handler. -/
def hcC1 : HealthCheck := hc_of [db_raise] SUCCESS_TTL_DEFAULT FAILED_TTL_DEFAULT

/-- `EnvironmentDump.add_section(name, func)` (source lines 167-170) over
the sections dict, embedded as an insertion-ordered association list with
unique keys: raise when the name is already taken, otherwise append the new
binding.  An `Except.error` carries the raised message and produces no
updated registry — the existing mapping is untouched. -/
def add_section {α : Type} (functions : List (String × α)) (name : String)
    (func : α) : Except String (List (String × α)) :=
  if functions.any fun kv => kv.1 = name then
    Except.error ("The name \x22" ++ name ++ "\x22 is already taken.")
  else
    Except.ok (functions ++ [(name, func)])

/-- Python `pat in s` on strings: `pat` occurs as a contiguous substring. -/
def substr_at (pat : List Char) : List Char → Bool
  | [] => pat.isEmpty
  | c :: rest => pat.isPrefixOf (c :: rest) || substr_at pat rest

/-- ASCII lowercase of one character (`str.lower()` restricted to the ASCII
letters, which is all the source's three patterns can match). -/
def py_char_lower (c : Char) : Char :=
  if 65 ≤ c.toNat ∧ c.toNat ≤ 90 then Char.ofNat (c.toNat + 32) else c

/-- Python `pat in s.lower()` for `String`s. -/
def py_in_lower (pat s : String) : Bool :=
  substr_at pat.toList (s.toList.map py_char_lower)

/-- The sensitive-key test of `safe_dump` (source line 229):
`'key' in key.lower() or 'token' in key.lower() or 'pass' in key.lower()`. -/
def is_sensitive_key (key : String) : Bool :=
  py_in_lower "key" key || py_in_lower "token" key || py_in_lower "pass" key

/-- A dictionary value as seen by `safe_dump`: either a JSON-serializable
value or one on which `json.dumps` raises `TypeError`. -/
inductive JVal where
  | jstr (s : String)
  | jnum (n : Int)
  | jbool (b : Bool)
  | unserializable (tag : Nat)
deriving DecidableEq, Repr

/-- Whether `json.dumps(value)` succeeds (source lines 233-237: `TypeError`
is raised exactly on the unserializable variant and caught with `pass`). -/
def json_serializable : JVal → Bool
  | JVal.unserializable _ => false
  | _ => true

/-- The fixed redaction marker written by `safe_dump` (source line 231). -/
def REDACTED : String := "********"

/-- `EnvironmentDump.safe_dump(dictionary)` (source lines 226-238): walk the
keys in insertion order; redact sensitive keys, keep serializable values,
silently drop the rest. -/
def safe_dump : List (String × JVal) → List (String × JVal)
  | [] => []
  | kv :: rest =>
    if is_sensitive_key kv.1 then (kv.1, JVal.jstr REDACTED) :: safe_dump rest
    else if json_serializable kv.2 then (kv.1, kv.2) :: safe_dump rest
    else safe_dump rest

/-- Example dict for the `safe_dump` witness. -/
def envEx : List (String × JVal) :=
  [("API_KEY", JVal.jstr "s3cr3t"), ("HOME", JVal.jstr "/root"),
   ("SOCKET", JVal.unserializable 0)]

/-! ### Helper lemmas and claim theorems -/

/-! ### Helper lemmas -/

theorem run_check_checker (hc : HealthCheck) (now : Int) (c : Checker) :
    (hc.run_check now c).checker = c.name := rfl

theorem run_check_of_ok (hc : HealthCheck) (now : Int) (c : Checker)
    (p : Bool) (o : String) (h : c.run = Except.ok (p, o)) :
    hc.run_check now c =
      { checker := c.name, output := o, passed := p, timestamp := now,
        expires := if p then now + hc.success_ttl else now + hc.failed_ttl } := by
  simp [HealthCheck.run_check, h]

theorem foldl_check_reduce (l : List Result) (b : Bool) :
    List.foldl check_reduce b l = (b && l.all fun r => r.passed) := by
  induction l generalizing b with
  | nil => simp
  | cons r rest ih => simp [check_reduce, ih, Bool.and_assoc]

theorem check_results (hc : HealthCheck) (now : Int) :
    (hc.check now).results = (check_loop hc now hc.checkers hc.effective_cache).1 := by
  simp only [HealthCheck.check]
  split <;> rfl

theorem check_cache (hc : HealthCheck) (now : Int) :
    (hc.check now).cache = (check_loop hc now hc.checkers hc.effective_cache).2.1 := by
  simp only [HealthCheck.check]
  split <;> rfl

theorem check_ran (hc : HealthCheck) (now : Int) :
    (hc.check now).ran = (check_loop hc now hc.checkers hc.effective_cache).2.2 := by
  simp only [HealthCheck.check]
  split <;> rfl

theorem check_passed (hc : HealthCheck) (now : Int) :
    (hc.check now).passed =
      List.foldl check_reduce true (check_loop hc now hc.checkers hc.effective_cache).1 := by
  simp only [HealthCheck.check]
  split <;> rfl

theorem check_status (hc : HealthCheck) (now : Int) :
    (hc.check now).status =
      if (hc.check now).passed then hc.success_status else hc.failed_status := by
  simp only [HealthCheck.check]
  split <;> simp_all

theorem check_message (hc : HealthCheck) (now : Int) :
    (hc.check now).message =
      if (hc.check now).passed then
        match hc.success_handler with
        | some handler => handler (hc.check now).results
        | none => "OK"
      else
        match hc.failed_handler with
        | some handler => handler (hc.check now).results
        | none => "NOT OK" := by
  simp only [HealthCheck.check]
  split <;> simp_all

/-- Master lemma about the per-checker loop: assuming every cache entry is
stored under its own checker name, the loop returns one result per checker
in registration order, preserves the entry-under-own-name invariant, and
leaves keys outside the registered names untouched. -/
theorem check_loop_spec (hc : HealthCheck) (now : Int) :
    ∀ (cs : List Checker) (cache : String → Option Result),
      (∀ k r, cache k = some r → r.checker = k) →
      ((check_loop hc now cs cache).1.map Result.checker = cs.map Checker.name ∧
       (∀ k r, (check_loop hc now cs cache).2.1 k = some r → r.checker = k) ∧
       (∀ k, k ∉ cs.map Checker.name → (check_loop hc now cs cache).2.1 k = cache k)) := by
  intro cs
  induction cs with
  | nil => intro cache hinv; exact ⟨rfl, hinv, fun k _ => rfl⟩
  | cons c rest ih =>
    intro cache hinv
    simp only [check_loop]
    cases hcn : cache c.name with
    | some r =>
      by_cases hfresh : r.expires ≥ now
      · simp only [hcn, hfresh, if_pos]
        obtain ⟨hmap, hinv2, hout⟩ := ih cache hinv
        refine ⟨?_, hinv2, ?_⟩
        · simp [hmap, hinv c.name r hcn]
        · intro k hk
          simp only [List.map_cons, List.mem_cons, not_or] at hk
          exact hout k hk.2
      · simp only [hcn, hfresh, if_neg, not_false_eq_true]
        have hinv2 : ∀ k r2,
            (fun k => if k = c.name then some (hc.run_check now c) else cache k) k = some r2 →
            r2.checker = k := by
          intro k r2 hk
          by_cases hkc : k = c.name
          · simp only [hkc, if_pos] at hk
            cases hk
            exact hkc ▸ run_check_checker hc now c
          · simp only [hkc, if_neg, not_false_eq_true] at hk
            exact hinv k r2 hk
        obtain ⟨hmap, hinv3, hout⟩ := ih _ hinv2
        refine ⟨?_, hinv3, ?_⟩
        · simp [hmap, run_check_checker]
        · intro k hk
          simp only [List.map_cons, List.mem_cons, not_or] at hk
          rw [hout k hk.2]
          simp [hk.1]
    | none =>
      simp only [hcn]
      have hinv2 : ∀ k r2,
          (fun k => if k = c.name then some (hc.run_check now c) else cache k) k = some r2 →
          r2.checker = k := by
        intro k r2 hk
        by_cases hkc : k = c.name
        · simp only [hkc, if_pos] at hk
          cases hk
          exact hkc ▸ run_check_checker hc now c
        · simp only [hkc, if_neg, not_false_eq_true] at hk
          exact hinv k r2 hk
      obtain ⟨hmap, hinv3, hout⟩ := ih _ hinv2
      refine ⟨?_, hinv3, ?_⟩
      · simp [hmap, run_check_checker]
      · intro k hk
        simp only [List.map_cons, List.mem_cons, not_or] at hk
        rw [hout k hk.2]
        simp [hk.1]

/-- If every cached entry passed and every checker's fresh run passes, then
every result produced by the loop passed, and the final cache again holds
only passing entries. -/
theorem check_loop_all_passed (hc : HealthCheck) (now : Int) :
    ∀ (cs : List Checker) (cache : String → Option Result),
      (∀ k r, cache k = some r → r.passed = true) →
      (∀ c ∈ cs, (hc.run_check now c).passed = true) →
      ((∀ r ∈ (check_loop hc now cs cache).1, r.passed = true) ∧
       (∀ k r, (check_loop hc now cs cache).2.1 k = some r → r.passed = true)) := by
  intro cs
  induction cs with
  | nil => intro cache hcache _; exact ⟨by simp [check_loop], hcache⟩
  | cons c rest ih =>
    intro cache hcache hrun
    have hrunc : (hc.run_check now c).passed = true := hrun c (by simp)
    have hrunrest : ∀ c2 ∈ rest, (hc.run_check now c2).passed = true :=
      fun c2 h2 => hrun c2 (by simp [h2])
    simp only [check_loop]
    cases hcn : cache c.name with
    | some r =>
      by_cases hfresh : r.expires ≥ now
      · simp only [hcn, hfresh, if_pos]
        obtain ⟨h1, h2⟩ := ih cache hcache hrunrest
        refine ⟨?_, h2⟩
        intro r2 hr2
        rcases List.mem_cons.mp hr2 with h | h
        · exact h ▸ hcache c.name r hcn
        · exact h1 r2 h
      · simp only [hcn, hfresh, if_neg, not_false_eq_true]
        have hcache2 : ∀ k r2,
            (fun k => if k = c.name then some (hc.run_check now c) else cache k) k = some r2 →
            r2.passed = true := by
          intro k r2 hk
          by_cases hkc : k = c.name
          · simp only [hkc, if_pos] at hk
            cases hk
            exact hrunc
          · simp only [hkc, if_neg, not_false_eq_true] at hk
            exact hcache k r2 hk
        obtain ⟨h1, h2⟩ := ih _ hcache2 hrunrest
        refine ⟨?_, h2⟩
        intro r2 hr2
        rcases List.mem_cons.mp hr2 with h | h
        · exact h ▸ hrunc
        · exact h1 r2 h
    | none =>
      simp only [hcn]
      have hcache2 : ∀ k r2,
          (fun k => if k = c.name then some (hc.run_check now c) else cache k) k = some r2 →
          r2.passed = true := by
        intro k r2 hk
        by_cases hkc : k = c.name
        · simp only [hkc, if_pos] at hk
          cases hk
          exact hrunc
        · simp only [hkc, if_neg, not_false_eq_true] at hk
          exact hcache k r2 hk
      obtain ⟨h1, h2⟩ := ih _ hcache2 hrunrest
      refine ⟨?_, h2⟩
      intro r2 hr2
      rcases List.mem_cons.mp hr2 with h | h
      · exact h ▸ hrunc
      · exact h1 r2 h

theorem check_loop_single_hit (hc : HealthCheck) (now : Int) (c : Checker)
    (cache : String → Option Result) (r : Result)
    (h1 : cache c.name = some r) (h2 : r.expires ≥ now) :
    check_loop hc now [c] cache = ([r], cache, []) := by
  simp [check_loop, h1, h2]

theorem check_loop_single_stale (hc : HealthCheck) (now : Int) (c : Checker)
    (cache : String → Option Result) (r : Result)
    (h1 : cache c.name = some r) (h2 : ¬ r.expires ≥ now) :
    check_loop hc now [c] cache =
      ([hc.run_check now c],
       fun k => if k = c.name then some (hc.run_check now c) else cache k,
       [c.name]) := by
  simp [check_loop, h1, h2]

theorem check_loop_single_absent (hc : HealthCheck) (now : Int) (c : Checker)
    (cache : String → Option Result)
    (h1 : cache c.name = none) :
    check_loop hc now [c] cache =
      ([hc.run_check now c],
       fun k => if k = c.name then some (hc.run_check now c) else cache k,
       [c.name]) := by
  simp [check_loop, h1]

theorem run_check_expires (hc : HealthCheck) (now : Int) (c : Checker) :
    (hc.run_check now c).expires =
      if (hc.run_check now c).passed then now + hc.success_ttl
      else now + hc.failed_ttl := rfl

theorem check_then_fst_cache (hc : HealthCheck) (now : Int) :
    (hc.check_then now).1.cache = (hc.check now).cache := rfl

theorem check_then_snd (hc : HealthCheck) (now : Int) :
    (hc.check_then now).2 = hc.check now := rfl

/-- Claim C4: when every registered checker returns `passed=true`, `check`
(run against an empty cache, no external cache handler) yields verdict
`true`, status `success_status`, a body rendered by the success handler from
the result list, and a result list with one entry per checker whose order
matches registration order. -/
theorem C4_all_passing_success (hc : HealthCheck) (now : Int)
    (h : List Result → String)
    (hch : hc.cache_handler = none)
    (hc0 : hc.cache = fun _ => none)
    (hh : hc.success_handler = some h)
    (hall : ∀ c ∈ hc.checkers, ∃ o, c.run = Except.ok (true, o)) :
    (hc.check now).passed = true ∧
    (hc.check now).status = hc.success_status ∧
    (hc.check now).message = h ((hc.check now).results) ∧
    (hc.check now).results.length = hc.checkers.length ∧
    (hc.check now).results.map Result.checker = hc.checkers.map Checker.name := by
  have heff : hc.effective_cache = fun _ => none := by
    simp [HealthCheck.effective_cache, hch, hc0]
  have hempty : ∀ k r, hc.effective_cache k = some r → r.checker = k := by
    rw [heff]; intro k r hkr; cases hkr
  have hemptyp : ∀ k r, hc.effective_cache k = some r → r.passed = true := by
    rw [heff]; intro k r hkr; cases hkr
  have hrun : ∀ c ∈ hc.checkers, (hc.run_check now c).passed = true := by
    intro c hcmem
    obtain ⟨o, ho⟩ := hall c hcmem
    simp [run_check_of_ok hc now c true o ho]
  have hpassed := check_loop_all_passed hc now hc.checkers hc.effective_cache hemptyp hrun
  have hap : ((check_loop hc now hc.checkers hc.effective_cache).1.all
      fun r => r.passed) = true := by
    rw [List.all_eq_true]; intro r hr; exact hpassed.1 r hr
  have hpt : (hc.check now).passed = true := by
    rw [check_passed, foldl_check_reduce, hap]; rfl
  have hspec := check_loop_spec hc now hc.checkers hc.effective_cache hempty
  refine ⟨hpt, ?_, ?_, ?_, ?_⟩
  · rw [check_status, hpt]; simp
  · rw [check_message, hpt]; simp [hh]
  · have hlen := congrArg List.length hspec.1
    simp only [List.length_map] at hlen
    rw [check_results]; exact hlen
  · rw [check_results]; exact hspec.1

/-- Claim C4 witness: a single passing checker under `count_handler`. -/
theorem C4_all_passing_success_witness :
    (hcC4.check 0).passed = true ∧
    (hcC4.check 0).status = hcC4.success_status ∧
    (hcC4.check 0).message = count_handler ((hcC4.check 0).results) ∧
    (hcC4.check 0).results.length = hcC4.checkers.length ∧
    (hcC4.check 0).results.map Result.checker = hcC4.checkers.map Checker.name :=
  C4_all_passing_success hcC4 0 count_handler rfl rfl rfl
    (by
      intro c hcmem
      simp only [hcC4, HealthCheck.init, List.mem_singleton] at hcmem
      exact ⟨"ok", by rw [hcmem]; rfl⟩)

/-- Claim C5: whenever the result list of a `check` invocation contains at
least one result with `passed=false`, the verdict is `false` and the
returned status is `failed_status`. -/
theorem C5_any_failure_failed_status (hc : HealthCheck) (now : Int)
    (hex : ∃ r ∈ (hc.check now).results, r.passed = false) :
    (hc.check now).passed = false ∧ (hc.check now).status = hc.failed_status := by
  obtain ⟨r, hr, hrp⟩ := hex
  rw [check_results] at hr
  have hall : ((check_loop hc now hc.checkers hc.effective_cache).1.all
      fun r => r.passed) = false := by
    by_contra hcon
    have ht := List.all_eq_true.mp (Bool.of_not_eq_false hcon) r hr
    rw [hrp] at ht
    exact Bool.false_ne_true ht
  have hpf : (hc.check now).passed = false := by
    rw [check_passed, foldl_check_reduce, hall]; rfl
  exact ⟨hpf, by rw [check_status, hpf]; simp⟩

/-- Claim C5 witness: one passing and one failing checker yield status 500. -/
theorem C5_any_failure_failed_status_witness :
    (hcC5.check 0).passed = false ∧ (hcC5.check 0).status = hcC5.failed_status :=
  C5_any_failure_failed_status hcC5 0
    ⟨{ checker := "cache", output := "timeout", passed := false,
       timestamp := 0, expires := 9 }, by decide, rfl⟩

/-- Claim C6: the verdict of `check` is the `check_reduce` fold (boolean AND
starting from `true`) over the produced result list, equivalently the AND of
all `passed` fields; an empty registry produces an empty result list,
verdict `true`, and the success branch. -/
theorem C6_verdict_is_and_fold (hc : HealthCheck) (now : Int) :
    (hc.check now).passed = List.foldl check_reduce true ((hc.check now).results) ∧
    (hc.check now).passed = ((hc.check now).results.all fun r => r.passed) ∧
    (hc.checkers = [] →
      (hc.check now).results = [] ∧ (hc.check now).passed = true ∧
      (hc.check now).status = hc.success_status) := by
  have h1 : (hc.check now).passed =
      List.foldl check_reduce true ((hc.check now).results) := by
    rw [check_results]; exact check_passed hc now
  refine ⟨h1, ?_, ?_⟩
  · rw [h1, foldl_check_reduce]; rfl
  · intro hempty
    have hres : (hc.check now).results = [] := by
      rw [check_results, hempty]; rfl
    have hpt : (hc.check now).passed = true := by
      rw [h1, hres]; rfl
    exact ⟨hres, hpt, by rw [check_status, hpt]; simp⟩

/-- Claim C6 witness: the empty registry instance. -/
theorem C6_verdict_is_and_fold_witness :
    (hcC6.check 0).passed = ((hcC6.check 0).results.all fun r => r.passed) ∧
    (hcC6.check 0).results = [] ∧ (hcC6.check 0).passed = true ∧
    (hcC6.check 0).status = hcC6.success_status :=
  ⟨(C6_verdict_is_and_fold hcC6 0).2.1, (C6_verdict_is_and_fold hcC6 0).2.2 rfl⟩

/-- Claim C10: with no external cache handler, if every entry of the cache
sits under its own checker name, then after `check` every entry still sits
under its own checker name, and every key outside the registered checker
names is untouched. -/
theorem C10_cache_key_invariant (hc : HealthCheck) (now : Int)
    (hch : hc.cache_handler = none)
    (hinv : ∀ k r, hc.cache k = some r → r.checker = k) :
    (∀ k r, (hc.check now).cache k = some r → r.checker = k) ∧
    (∀ k, k ∉ hc.checkers.map Checker.name → (hc.check now).cache k = hc.cache k) := by
  have heff : hc.effective_cache = hc.cache := by
    simp [HealthCheck.effective_cache, hch]
  have hspec := check_loop_spec hc now hc.checkers hc.effective_cache
    (by rw [heff]; exact hinv)
  constructor
  · intro k r hkr
    rw [check_cache] at hkr
    exact hspec.2.1 k r hkr
  · intro k hk
    rw [check_cache, hspec.2.2 k hk, heff]

/-- Claim C2 counterexample: with `failed_ttl=0`, after a first `check` at
instant 0 a second `check` at the same instant does **not** re-invoke the
failing checker (its invocation log is empty): the cached failure has
`expires = 0` and the code's `expires >= now` test reuses it, contradicting
"re-invoked on every call regardless of how much time has elapsed". -/
theorem C2_counterexample :
    hcC2.failed_ttl = 0 ∧
    (hcC2.check_then 0).2.ran = ["db"] ∧
    ((hcC2.check_then 0).1.check_then 0).2.ran = [] := by decide

/-- Claim C2 as amended: with `failed_ttl=0` (no external cache handler,
the checker not cached yet), a failing checker is re-invoked by every later
`check` call made at any instant strictly after the previous run; only a
call at exactly the same instant reuses the cached failure. -/
theorem C2_amended_ttl_zero_rerun (hc : HealthCheck) (c : Checker) (t1 t2 : Int)
    (hch : hc.cache_handler = none)
    (hcs : hc.checkers = [c])
    (hc0 : hc.cache c.name = none)
    (httl : hc.failed_ttl = 0)
    (hfail : (hc.run_check t1 c).passed = false)
    (ht : t1 < t2) :
    (hc.check_then t1).2.ran = [c.name] ∧
    ((hc.check_then t1).1.check_then t2).2.ran = [c.name] := by
  have heff : hc.effective_cache = hc.cache := by
    simp [HealthCheck.effective_cache, hch]
  have hloop1 : check_loop hc t1 hc.checkers hc.effective_cache =
      ([hc.run_check t1 c],
       fun k => if k = c.name then some (hc.run_check t1 c) else hc.cache k,
       [c.name]) := by
    rw [hcs, heff]
    exact check_loop_single_absent hc t1 c hc.cache hc0
  have hran1 : (hc.check t1).ran = [c.name] := by
    rw [check_ran, hloop1]
  have hcache1 : (hc.check t1).cache =
      fun k => if k = c.name then some (hc.run_check t1 c) else hc.cache k := by
    rw [check_cache, hloop1]
  have hexp : (hc.run_check t1 c).expires = t1 := by
    rw [run_check_expires, hfail]
    simp [httl]
  have h1cache : (hc.check_then t1).1.cache c.name = some (hc.run_check t1 c) := by
    rw [check_then_fst_cache, hcache1]
    simp
  have h1ch : (hc.check_then t1).1.cache_handler = none := hch
  have h1eff : (hc.check_then t1).1.effective_cache = (hc.check_then t1).1.cache := by
    simp [HealthCheck.effective_cache, h1ch]
  have hstale : ¬ (hc.run_check t1 c).expires ≥ t2 := by
    rw [hexp]
    exact not_le.mpr ht
  have hcs1 : (hc.check_then t1).1.checkers = [c] := hcs
  have hloop2 : check_loop (hc.check_then t1).1 t2 (hc.check_then t1).1.checkers
      (hc.check_then t1).1.effective_cache =
      ([(hc.check_then t1).1.run_check t2 c],
       fun k => if k = c.name then some ((hc.check_then t1).1.run_check t2 c)
                else (hc.check_then t1).1.cache k,
       [c.name]) := by
    rw [hcs1, h1eff]
    exact check_loop_single_stale (hc.check_then t1).1 t2 c (hc.check_then t1).1.cache
      (hc.run_check t1 c) h1cache hstale
  refine ⟨by rw [check_then_snd]; exact hran1, ?_⟩
  rw [check_then_snd, check_ran, hloop2]

/-- Claim C2 amended witness: the failing checker is re-run at instant 1
after a first run at instant 0. -/
theorem C2_amended_ttl_zero_rerun_witness :
    (hcC2.check_then 0).2.ran = [db_fail.name] ∧
    ((hcC2.check_then 0).1.check_then 1).2.ran = [db_fail.name] :=
  C2_amended_ttl_zero_rerun hcC2 db_fail 0 1 rfl rfl rfl (by decide) (by decide)
    (by decide)

/-- Claim C3 counterexample: at `now = expires` (both 5) the claim's strict
rule `now < expires_at` says the entry is stale and the checker must be
re-run, but the code's `expires >= time.time()` test reuses it: the
invocation log is empty and the cached result is returned. -/
theorem C3_counterexample :
    ¬ ((5 : Int) < r0_cached.expires) ∧
    (hcC3.check 5).ran = [] ∧
    (hcC3.check 5).results = [r0_cached] := by decide

/-- Claim C3 as amended: a cached result is reused iff `expires ≥ now`
(i.e. iff `now ≤ expires_at`, non-strict); otherwise the entry is treated
as absent, the checker is re-run, and the new result overwrites the entry
in place (no other key changes, nothing is evicted). -/
theorem C3_amended_freshness (hc : HealthCheck) (c : Checker) (r : Result) (now : Int)
    (hch : hc.cache_handler = none)
    (hcs : hc.checkers = [c])
    (hcc : hc.cache c.name = some r) :
    (r.expires ≥ now →
      (hc.check now).results = [r] ∧ (hc.check now).ran = [] ∧
      (hc.check now).cache = hc.cache) ∧
    (¬ r.expires ≥ now →
      (hc.check now).results = [hc.run_check now c] ∧
      (hc.check now).ran = [c.name] ∧
      (hc.check now).cache c.name = some (hc.run_check now c) ∧
      ∀ k, k ≠ c.name → (hc.check now).cache k = hc.cache k) := by
  have heff : hc.effective_cache = hc.cache := by
    simp [HealthCheck.effective_cache, hch]
  constructor
  · intro hfresh
    have hloop : check_loop hc now hc.checkers hc.effective_cache =
        ([r], hc.cache, []) := by
      rw [hcs, heff]
      exact check_loop_single_hit hc now c hc.cache r hcc hfresh
    exact ⟨by rw [check_results, hloop], by rw [check_ran, hloop],
      by rw [check_cache, hloop]⟩
  · intro hstale
    have hloop : check_loop hc now hc.checkers hc.effective_cache =
        ([hc.run_check now c],
         fun k => if k = c.name then some (hc.run_check now c) else hc.cache k,
         [c.name]) := by
      rw [hcs, heff]
      exact check_loop_single_stale hc now c hc.cache r hcc hstale
    refine ⟨by rw [check_results, hloop], by rw [check_ran, hloop], ?_, ?_⟩
    · rw [check_cache, hloop]
      simp
    · intro k hk
      rw [check_cache, hloop]
      simp [hk]

/-- Claim C3 amended witness: the boundary instant reuses the cached entry
and leaves the cache untouched. -/
theorem C3_amended_freshness_witness :
    (hcC3.check 5).results = [r0_cached] ∧ (hcC3.check 5).ran = [] ∧
    (hcC3.check 5).cache = hcC3.cache :=
  (C3_amended_freshness hcC3 db_pass r0_cached 5 rfl rfl rfl).1 (by decide)

/-- Claim C1 evaluated at the failing input: the raised error is indeed
swallowed and turned into a `passed=false` result whose `output` is the
handler's return value — but because `run_check` passes `sys.exc_info()[0]`
(the exception *class*) to the handler, the default handler's string is
`"<class RuntimeError>"`-style, not the raised message `"connection
refused"` that the claim promises. -/
theorem C1_exception_output_is_class_string :
    (hcC1.check 0).results.map (fun r => (r.checker, r.passed, r.output)) =
      [("db", false, "<class \x27RuntimeError\x27>")] ∧
    "<class \x27RuntimeError\x27>" ≠ "connection refused" ∧
    (hcC1.check 0).status = hcC1.failed_status := by decide

/-- Claim C10 witness: the `db` instance leaves the unrelated key `"zzz"`
untouched. -/
theorem C10_cache_key_invariant_witness :
    ((hc_of [db_pass] SUCCESS_TTL_DEFAULT FAILED_TTL_DEFAULT).check 0).cache "zzz" =
      (hc_of [db_pass] SUCCESS_TTL_DEFAULT FAILED_TTL_DEFAULT).cache "zzz" :=
  (C10_cache_key_invariant (hc_of [db_pass] SUCCESS_TTL_DEFAULT FAILED_TTL_DEFAULT) 0 rfl
    (by intro k r hkr; cases hkr)).2 "zzz" (by decide)

theorem safe_dump_keys : ∀ (d : List (String × JVal)) (k : String) (w : JVal),
    (k, w) ∈ safe_dump d → k ∈ d.map Prod.fst := by
  intro d
  induction d with
  | nil => intro k w h; cases h
  | cons kv rest ih =>
    intro k w h
    simp only [safe_dump] at h
    simp only [List.map_cons, List.mem_cons]
    by_cases h1 : is_sensitive_key kv.1 = true
    · rw [if_pos h1] at h
      rcases List.mem_cons.mp h with h2 | h2
      · exact Or.inl (congrArg Prod.fst h2)
      · exact Or.inr (ih k w h2)
    · rw [if_neg h1] at h
      by_cases h2 : json_serializable kv.2 = true
      · rw [if_pos h2] at h
        rcases List.mem_cons.mp h with h3 | h3
        · exact Or.inl (congrArg Prod.fst h3)
        · exact Or.inr (ih k w h3)
      · rw [if_neg h2] at h
        exact Or.inr (ih k w h)

theorem safe_dump_cons_superset (kv : String × JVal) (rest : List (String × JVal)) :
    ∀ x ∈ safe_dump rest, x ∈ safe_dump (kv :: rest) := by
  intro x hx
  simp only [safe_dump]
  by_cases h1 : is_sensitive_key kv.1 = true
  · rw [if_pos h1]; exact List.mem_cons_of_mem _ hx
  · rw [if_neg h1]
    by_cases h2 : json_serializable kv.2 = true
    · rw [if_pos h2]; exact List.mem_cons_of_mem _ hx
    · rw [if_neg h2]; exact hx

theorem safe_dump_sensitive_mem : ∀ (d : List (String × JVal)) (k : String) (v : JVal),
    (k, v) ∈ d → is_sensitive_key k = true →
    (k, JVal.jstr REDACTED) ∈ safe_dump d := by
  intro d
  induction d with
  | nil => intro k v h; cases h
  | cons kv rest ih =>
    intro k v h hs
    rcases List.mem_cons.mp h with heq | hmem
    · cases heq.symm
      simp only [safe_dump, hs, if_pos]
      exact List.mem_cons_self _ _
    · exact safe_dump_cons_superset kv rest _ (ih k v hmem hs)

theorem safe_dump_keep_mem : ∀ (d : List (String × JVal)) (k : String) (v : JVal),
    (k, v) ∈ d → is_sensitive_key k = false → json_serializable v = true →
    (k, v) ∈ safe_dump d := by
  intro d
  induction d with
  | nil => intro k v h; cases h
  | cons kv rest ih =>
    intro k v h hs hj
    rcases List.mem_cons.mp h with heq | hmem
    · cases heq.symm
      simp only [safe_dump, hs, hj]
      simp
    · exact safe_dump_cons_superset kv rest _ (ih k v hmem hs hj)

theorem safe_dump_drop : ∀ (d : List (String × JVal)),
    (d.map Prod.fst).Nodup → ∀ (k : String) (v : JVal),
    (k, v) ∈ d → is_sensitive_key k = false → json_serializable v = false →
    ∀ w, (k, w) ∉ safe_dump d := by
  intro d
  induction d with
  | nil => intro _ k v h; cases h
  | cons kv rest ih =>
    intro hnd k v h hs hj w hw
    rw [List.map_cons, List.nodup_cons] at hnd
    obtain ⟨hk1, hrest⟩ := hnd
    rcases List.mem_cons.mp h with heq | hmem
    · cases heq.symm
      simp only [safe_dump, hs, hj] at hw
      simp only [Bool.false_eq_true, if_false] at hw
      exact hk1 (safe_dump_keys rest k w hw)
    · have hkk : kv.1 ≠ k := by
        intro hcontr
        exact hk1 (hcontr ▸ List.mem_map.mpr ⟨(k, v), hmem, rfl⟩)
      simp only [safe_dump] at hw
      by_cases h1 : is_sensitive_key kv.1 = true
      · rw [if_pos h1] at hw
        rcases List.mem_cons.mp hw with heq2 | hw2
        · exact hkk (congrArg Prod.fst heq2).symm
        · exact ih hrest k v hmem hs hj w hw2
      · rw [if_neg h1] at hw
        by_cases h2 : json_serializable kv.2 = true
        · rw [if_pos h2] at hw
          rcases List.mem_cons.mp hw with heq2 | hw2
          · exact hkk (congrArg Prod.fst heq2).symm
          · exact ih hrest k v hmem hs hj w hw2
        · rw [if_neg h2] at hw
          exact ih hrest k v hmem hs hj w hw

/-- Claim C7: `add_section` raises exactly when the name is already among
the registered section names; the error is the raised exception itself
(synchronous, not swallowed) and produces no updated registry, so the
existing mapping is untouched; on a fresh name the function is appended
under that name. -/
theorem C7_add_section_duplicate (α : Type) (fs : List (String × α))
    (name : String) (f : α) :
    ((∃ msg, add_section fs name f = Except.error msg) ↔ name ∈ fs.map Prod.fst) ∧
    (name ∈ fs.map Prod.fst →
      add_section fs name f =
        Except.error ("The name \x22" ++ name ++ "\x22 is already taken.")) ∧
    (name ∉ fs.map Prod.fst →
      add_section fs name f = Except.ok (fs ++ [(name, f)])) := by
  have hmem : (fs.any fun kv => kv.1 = name) = true ↔ name ∈ fs.map Prod.fst := by
    rw [List.any_eq_true]
    constructor
    · rintro ⟨kv, hkv, he⟩
      exact List.mem_map.mpr ⟨kv, hkv, by simpa using he⟩
    · intro hin
      obtain ⟨kv, hkv, he⟩ := List.mem_map.mp hin
      exact ⟨kv, hkv, by simpa using he⟩
  by_cases h : (fs.any fun kv => kv.1 = name) = true
  · have hm := hmem.mp h
    have herr : add_section fs name f =
        Except.error ("The name \x22" ++ name ++ "\x22 is already taken.") := by
      simp [add_section, h]
    exact ⟨⟨fun _ => hm, fun _ => ⟨_, herr⟩⟩, fun _ => herr, fun hn => absurd hm hn⟩
  · have hm : name ∉ fs.map Prod.fst := fun hx => h (hmem.mpr hx)
    have hok : add_section fs name f = Except.ok (fs ++ [(name, f)]) := by
      simp only [add_section]
      rw [if_neg (by simpa using h)]
    refine ⟨⟨?_, fun hx => absurd hx hm⟩, fun hx => absurd hx hm, fun _ => hok⟩
    rintro ⟨msg, hmsg⟩
    rw [hok] at hmsg
    cases hmsg

/-- Claim C7 witness: registering `"os"` twice raises; `"python"` is fresh
and gets appended. -/
theorem C7_add_section_duplicate_witness :
    add_section [("os", 0)] "os" (1 : Nat) =
      Except.error ("The name \x22" ++ "os" ++ "\x22 is already taken.") ∧
    add_section [("os", 0)] "python" (1 : Nat) =
      Except.ok ([("os", 0)] ++ [("python", 1)]) :=
  ⟨(C7_add_section_duplicate Nat [("os", 0)] "os" 1).2.1 (by decide),
   (C7_add_section_duplicate Nat [("os", 0)] "python" 1).2.2 (by decide)⟩

/-- Claim C8: over any dict (unique keys), `safe_dump` redacts every key
whose lowercase form contains `"key"`, `"token"` or `"pass"` to the fixed
marker, keeps every other key with a serializable value unchanged, silently
drops every other key with an unserializable value, and invents no keys. -/
theorem C8_safe_dump_redaction (d : List (String × JVal))
    (hnd : (d.map Prod.fst).Nodup) :
    (∀ k v, (k, v) ∈ d → is_sensitive_key k = true →
      (k, JVal.jstr REDACTED) ∈ safe_dump d) ∧
    (∀ k v, (k, v) ∈ d → is_sensitive_key k = false → json_serializable v = true →
      (k, v) ∈ safe_dump d) ∧
    (∀ k v, (k, v) ∈ d → is_sensitive_key k = false → json_serializable v = false →
      ∀ w, (k, w) ∉ safe_dump d) ∧
    (∀ k w, (k, w) ∈ safe_dump d → k ∈ d.map Prod.fst) :=
  ⟨fun k v h hs => safe_dump_sensitive_mem d k v h hs,
   fun k v h hs hj => safe_dump_keep_mem d k v h hs hj,
   fun k v h hs hj w => safe_dump_drop d hnd k v h hs hj w,
   fun k w h => safe_dump_keys d k w h⟩

/-- Claim C8 witness: `API_KEY` is redacted, `HOME` is kept verbatim, the
unserializable `SOCKET` is dropped. -/
theorem C8_safe_dump_redaction_witness :
    ("API_KEY", JVal.jstr REDACTED) ∈ safe_dump envEx ∧
    ("HOME", JVal.jstr "/root") ∈ safe_dump envEx ∧
    ¬ ("SOCKET", JVal.unserializable 0) ∈ safe_dump envEx :=
  ⟨(C8_safe_dump_redaction envEx (by decide)).1 "API_KEY" (JVal.jstr "s3cr3t")
      (by decide) (by decide),
   (C8_safe_dump_redaction envEx (by decide)).2.1 "HOME" (JVal.jstr "/root")
      (by decide) (by decide) (by decide),
   (C8_safe_dump_redaction envEx (by decide)).2.2.1 "SOCKET" (JVal.unserializable 0)
      (by decide) (by decide) (by decide) (JVal.unserializable 0)⟩

/-- Claim C9: the constructor stores `float(x or 0)` for each TTL, so an
explicit `None` or `0` argument yields a stored TTL of `0` (caching
disabled), while the documented defaults `27` and `9` apply only through
the parameter default values (i.e. when the argument is omitted). -/
theorem C9_ttl_normalization (cs : List Checker) (ss fs : Nat)
    (sh fh : Option (List Result → String))
    (eh : Checker → ExnObj → Bool × String)
    (ch : Option (Unit → String → Option Result)) (lof : Bool) :
    (HealthCheck.init cs ss fs none none sh fh eh ch lof).success_ttl = 0 ∧
    (HealthCheck.init cs ss fs none none sh fh eh ch lof).failed_ttl = 0 ∧
    (HealthCheck.init cs ss fs (some 0) (some 0) sh fh eh ch lof).success_ttl = 0 ∧
    (HealthCheck.init cs ss fs (some 0) (some 0) sh fh eh ch lof).failed_ttl = 0 ∧
    (HealthCheck.init cs ss fs SUCCESS_TTL_DEFAULT FAILED_TTL_DEFAULT
        sh fh eh ch lof).success_ttl = 27 ∧
    (HealthCheck.init cs ss fs SUCCESS_TTL_DEFAULT FAILED_TTL_DEFAULT
        sh fh eh ch lof).failed_ttl = 9 := by
  exact ⟨rfl, rfl, rfl, rfl, rfl, rfl⟩

/-- Claim C9 witness: a concrete instantiation of the constructor. -/
theorem C9_ttl_normalization_witness :
    (HealthCheck.init [] 200 500 none none none none basic_exception_handler
        none true).success_ttl = 0 ∧
    (HealthCheck.init [] 200 500 none none none none basic_exception_handler
        none true).failed_ttl = 0 ∧
    (HealthCheck.init [] 200 500 (some 0) (some 0) none none
        basic_exception_handler none true).success_ttl = 0 ∧
    (HealthCheck.init [] 200 500 (some 0) (some 0) none none
        basic_exception_handler none true).failed_ttl = 0 ∧
    (HealthCheck.init [] 200 500 SUCCESS_TTL_DEFAULT FAILED_TTL_DEFAULT none none
        basic_exception_handler none true).success_ttl = 27 ∧
    (HealthCheck.init [] 200 500 SUCCESS_TTL_DEFAULT FAILED_TTL_DEFAULT none none
        basic_exception_handler none true).failed_ttl = 9 :=
  C9_ttl_normalization [] 200 500 none none basic_exception_handler none true
